import Mathlib

/-!
# Verification of the brumous particle-system core

Shallow embedding of the particle-system core of the `brumous` repository
(`src/random.rs`, `src/particle.rs`, `src/particle_system.rs`,
`src/particle_system_renderer.rs`) together with proofs about it.

Modelling conventions:

* `u64` state and integer operations are modelled on `ℕ` with explicit
  `% 2 ^ 64` where the Rust operation wraps.
* `f32` values are modelled as exact rationals (`ℚ`); `f32` arithmetic
  (`+`, `-`, `*`) is modelled as exact rational arithmetic.  The single
  place where rounding is semantically observable to the claims under
  study — the `(x as f64 / 2 ^ 53) as f32` conversion inside
  `Randf32::next` — is modelled exactly: the `f64` division there is
  exact (numerator below `2 ^ 53`, power-of-two denominator), and the
  final `as f32` cast (round to nearest, ties to even, 24-bit
  significand; the values involved are all in the normal `f32` range)
  is modelled by `castF32` below.
* Durations: `ParticleSystem::update` converts its `Duration` argument
  via `delta.as_millis() as f32 / 1000.0`; the embedding takes the
  already-converted per-frame delta (a non-negative rational) directly.
-/

namespace Brumous

/-- `2 ^ 64`, the modulus of the 64-bit xorshift state. -/
def U64 : ℕ := 2 ^ 64

/-- The xorshift state update performed at the start of `Randf32::next`:
`state ^= state << 13; state ^= state >> 7; state ^= state << 17`
on a `u64` state. -/
def xorshift (s : ℕ) : ℕ :=
  let s1 := (s ^^^ (s <<< 13)) % U64
  let s2 := s1 ^^^ (s1 >>> 7)
  (s2 ^^^ (s2 <<< 17)) % U64

/-- Base-2 logarithm for the numerators fed to `castF32` (all below
`2 ^ 53`): the greatest `k ≤ 53` with `2 ^ k ≤ n`.  (Defined via
`Nat.findGreatest` rather than `Nat.log2` so that it reduces by
structural recursion.) -/
def lg (n : ℕ) : ℕ :=
  Nat.findGreatest (fun k => 2 ^ k ≤ n) 53

/-- Round a non-negative rational to the nearest integer, ties to even —
the rounding mode of Rust `as f32` casts. -/
def rne (x : ℚ) : ℤ :=
  if x - ⌊x⌋ < 1 / 2 then ⌊x⌋
  else if 1 / 2 < x - ⌊x⌋ then ⌊x⌋ + 1
  else if ⌊x⌋ % 2 = 0 then ⌊x⌋ else ⌊x⌋ + 1

/-- Exact model of `((val as f64) / F64_MANTISSA) as f32` for
`val < 2 ^ 53` (`F64_MANTISSA = 2 ^ 53`): the `f64` value `val / 2 ^ 53`
is exact, and the `as f32` cast rounds it to 24 significant bits
(nearest, ties to even).  For `val ≠ 0` the value lies in
`[2 ^ (lg val - 53), 2 ^ (lg val - 52))`, well inside the normal `f32`
range, so rounding to the grid of spacing `2 ^ (lg val - 53 - 23)` is
the exact cast semantics. -/
def castF32 (val : ℕ) : ℚ :=
  if val = 0 then 0
  else (rne (((val * 2 ^ 23 : ℕ) : ℚ) / ((2 ^ lg val : ℕ) : ℚ)) : ℚ) /
    ((2 ^ (76 - lg val) : ℕ) : ℚ)

/-- `Randf32` from `src/random.rs`: a 64-bit xorshift generator. -/
structure Randf32 where
  state : ℕ
deriving DecidableEq

/-- `Randf32::new()`: the fixed default seed. -/
def Randf32.new : Randf32 := ⟨555555555⟩

/-- `Randf32::next()`: advance the xorshift state, then return
`((state >> 11) as f64 / F64_MANTISSA) as f32`. -/
def Randf32.next (r : Randf32) : ℚ × Randf32 :=
  let s := xorshift r.state
  (castF32 (s >>> 11), ⟨s⟩)

/-- `Randf32::in_range(range)`:
`(range.end - range.start) * self.next() + range.start`
(`lo`/`hi` stand for `range.start`/`range.end`). -/
def Randf32.inRange (r : Randf32) (lo hi : ℚ) : ℚ × Randf32 :=
  let (u, r') := r.next
  ((hi - lo) * u + lo, r')

/-- `Spread` from `src/particle_system.rs`: mean/variance descriptor of one
randomized particle attribute. -/
structure Spread where
  mean     : ℚ
  variance : ℚ
deriving DecidableEq

/-- `Randf32::spread(spread)`:
`spread.mean + self.in_range(-1.0..1.0) * spread.variance`. -/
def Randf32.spread (r : Randf32) (s : Spread) : ℚ × Randf32 :=
  let (u, r') := r.inRange (-1) 1
  (s.mean + u * s.variance, r')

/-- 3-component `f32` vector (`cgmath::Vector3<f32>`). -/
structure V3 where
  x : ℚ
  y : ℚ
  z : ℚ
deriving DecidableEq

/-- 4-component value: `cgmath::Vector4<f32>` / `cgmath::Quaternion<f32>`. -/
structure V4 where
  x : ℚ
  y : ℚ
  z : ℚ
  w : ℚ
deriving DecidableEq

/-- Componentwise vector addition. -/
def V3.add (a b : V3) : V3 := ⟨a.x + b.x, a.y + b.y, a.z + b.z⟩

/-- Scalar multiplication `v * c`. -/
def V3.smul (a : V3) (c : ℚ) : V3 := ⟨a.x * c, a.y * c, a.z * c⟩

/-- `Randf32::vec3_spread`: three independent samples, each computed by the
same `mean + in_range(-1.0..1.0) * variance` formula (the source inlines
the body of `spread` once per component). -/
def Randf32.vec3Spread (r : Randf32) (s0 s1 s2 : Spread) : V3 × Randf32 :=
  let (a, r1) := r.spread s0
  let (b, r2) := r1.spread s1
  let (c, r3) := r2.spread s2
  (⟨a, b, c⟩, r3)

/-- `Randf32::vec4_spread`: four independent per-component samples. -/
def Randf32.vec4Spread (r : Randf32) (s0 s1 s2 s3 : Spread) : V4 × Randf32 :=
  let (a, r1) := r.spread s0
  let (b, r2) := r1.spread s1
  let (c, r3) := r2.spread s2
  let (d, r4) := r3.spread s3
  (⟨a, b, c, d⟩, r4)

/-- `Randf32::quat_spread`: same sampling as `vec4_spread`, packaged as a
quaternion. -/
def Randf32.quatSpread (r : Randf32) (s0 s1 s2 s3 : Spread) : V4 × Randf32 :=
  r.vec4Spread s0 s1 s2 s3

/-- The particle record of `src/particle.rs` (position, velocity, rotation,
scale, remaining life, weight/mass, color).  The `Spread`-based revision
initializes the mass field under the name `mass`; the record itself
(`src/particle.rs`) calls it `weight`. -/
structure Particle where
  pos    : V3
  vel    : V3
  rot    : V4
  scale  : ℚ
  life   : ℚ
  weight : ℚ
  color  : V4
deriving DecidableEq

/-- `Particle::default()` (`src/particle.rs`, lines 362-374): a dead
particle placed far below the visible area.  Note `life = 0.0`. -/
def Particle.default : Particle :=
  { pos := ⟨0, -100, 0⟩
    rot := ⟨0, 0, 0, 0⟩
    vel := ⟨0, 0, 0⟩
    scale := 8 / 1000
    life := 0
    weight := 1
    color := ⟨0, 0, 0, 0⟩ }

/-- `Particle::update(delta, gravity)` (`src/particle.rs`, lines 346-349):
`self.vel += Vector3::new(0.0, gravity * self.weight, 0.0) * delta * 0.5;`
`self.pos += self.vel * delta;` -/
def Particle.update (p : Particle) (delta gravity : ℚ) : Particle :=
  let vel := p.vel.add (((V3.mk 0 (gravity * p.weight) 0).smul delta).smul (1 / 2))
  let pos := p.pos.add (vel.smul delta)
  { p with vel := vel, pos := pos }

/-- `ParticleSystemBounds`: one `Spread` per randomized attribute
dimension. -/
structure ParticleSystemBounds where
  spawnRange : Spread × Spread × Spread
  initVel    : Spread × Spread × Spread
  rot        : Spread × Spread × Spread × Spread
  color      : Spread × Spread × Spread × Spread
  life       : Spread
  mass       : Spread
  scale      : Spread
deriving DecidableEq

/-- The creation-time parameters of `ParticleSystemDescriptor` that the
simulation core consumes (name and GPU handles omitted). -/
structure ParticleSystemDescriptor where
  max     : ℕ
  rate    : ℕ
  pos     : V3
  life    : ℚ
  gravity : ℚ
  bounds  : ParticleSystemBounds
deriving DecidableEq

/-- The simulation-relevant state of `ParticleSystem`
(`src/particle_system.rs`).  The GPU instance buffer is not stored:
its writes are reported by `ParticleSystem.update` as an explicit list,
and its re-initialization contents are derived from `particles`. -/
structure ParticleSystem where
  particles : List Particle
  searchPos : ℕ
  rate      : ℕ
  position  : V3
  life      : ℚ
  gravity   : ℚ
  bounds    : ParticleSystemBounds
  rand      : Randf32
deriving DecidableEq

/-- `ParticleSystem::new(device, desc)`: a pool of `desc.max` default
(dead) particles, cursor 0, freshly seeded default generator. -/
def ParticleSystem.new (desc : ParticleSystemDescriptor) : ParticleSystem :=
  { particles := List.replicate desc.max Particle.default
    searchPos := 0
    rate := desc.rate
    position := desc.pos
    life := desc.life
    gravity := desc.gravity
    bounds := desc.bounds
    rand := Randf32.new }

/-- One scan loop of `find_unused_particle`: starting at `start`, examine
`fuel` consecutive indices and return the first `i` with
`self.particles[i].life < 0.0`.  The indexing `self.particles[i]` is
modelled with `List.getD`; an out-of-range access (which panics in Rust,
and is only possible when the cursor exceeds the pool length) is treated
separately by the `Checked` variants below. -/
def findFrom (ps : List Particle) : ℕ → ℕ → Option ℕ
  | _, 0 => none
  | start, fuel + 1 =>
    if (ps.getD start Particle.default).life < 0 then some start
    else findFrom ps (start + 1) fuel

/-- `ParticleSystem::find_unused_particle`
(`src/particle_system.rs`, lines 95-111): scan `search_pos..len`, then
`0..search_pos`, for the first particle with `life < 0.0`; fall back to
index 0.  In the source the method also assigns `self.search_pos`; in
every branch the assigned value equals the returned index, so the caller
(`spawnOne`) stores the returned index as the new cursor. -/
def findUnusedParticle (ps : List Particle) (searchPos : ℕ) : ℕ :=
  match findFrom ps searchPos (ps.length - searchPos) with
  | some i => i
  | none =>
    match findFrom ps 0 searchPos with
    | some i => i
    | none => 0

/-- `ParticleSystem::new_particle()`: sample a fresh particle; the struct
fields are evaluated (and the generator advanced) in source order:
pos, vel, rot, color, scale, life, mass. -/
def newParticle (rand : Randf32) (bounds : ParticleSystemBounds) (position : V3) :
    Particle × Randf32 :=
  let (sr, r1) := rand.vec3Spread bounds.spawnRange.1 bounds.spawnRange.2.1 bounds.spawnRange.2.2
  let (vel, r2) := r1.vec3Spread bounds.initVel.1 bounds.initVel.2.1 bounds.initVel.2.2
  let (rot, r3) := r2.quatSpread bounds.rot.1 bounds.rot.2.1 bounds.rot.2.2.1 bounds.rot.2.2.2
  let (color, r4) := r3.vec4Spread bounds.color.1 bounds.color.2.1 bounds.color.2.2.1
    bounds.color.2.2.2
  let (scale, r5) := r4.spread bounds.scale
  let (life, r6) := r5.spread bounds.life
  let (mass, r7) := r6.spread bounds.mass
  ({ pos := sr.add position
     vel := vel
     rot := rot
     scale := scale
     life := life
     weight := mass
     color := color }, r7)

/-- One iteration of the spawn loop in `ParticleSystem::update`:
`let idx = self.find_unused_particle(); self.particles[idx] = self.new_particle();`. -/
def spawnOne (s : ParticleSystem) : ParticleSystem :=
  let idx := findUnusedParticle s.particles s.searchPos
  let np := newParticle s.rand s.bounds s.position
  { s with particles := s.particles.set idx np.1, searchPos := idx, rand := np.2 }

/-- The spawn loop `for _ in 0..self.rate { ... }`. -/
def spawnLoop (s : ParticleSystem) : ℕ → ParticleSystem
  | 0 => s
  | n + 1 => spawnLoop (spawnOne s) n

/-- `ParticleInstance::size()`: `size_of::<ParticleInstance>()` for the
`repr(C)` record `{ model: [[f32;4];4], normal: [[f32;3];3], color: [f32;4] }`
= 64 + 36 + 16 = 116 bytes. -/
def instanceSize : ℕ := 116

/-- The per-particle pass of `ParticleSystem::update`: for each particle
(at pool index `i`), `particle.life -= delta`; if `particle.life > 0.0`
afterwards, integrate physics and emit a buffer write at byte offset
`i * ParticleInstance::size()`.  The write payload in the source is
`particle.to_raw()` (the model/normal/color instance record), a pure
projection of the written particle; the emitted list records the byte
offset together with the particle whose projection is written. -/
def stepParticles (delta gravity : ℚ) : List Particle → ℕ → List Particle × List (ℕ × Particle)
  | [], _ => ([], [])
  | p :: rest, i =>
    let p1 : Particle := { p with life := p.life - delta }
    let r := stepParticles delta gravity rest (i + 1)
    if 0 < p1.life then
      let p2 := p1.update delta gravity
      (p2 :: r.1, (i * instanceSize, p2) :: r.2)
    else
      (p1 :: r.1, r.2)

/-- The spawn phase of `ParticleSystem::update`:
`if self.life >= 0.0 { for _ in 0..self.rate { ... } }`. -/
def spawnPhase (s : ParticleSystem) : ParticleSystem :=
  if 0 ≤ s.life then spawnLoop s s.rate else s

/-- `ParticleSystem::update(delta, queue)`
(`src/particle_system.rs`, lines 125-149), after the
`delta.as_millis() as f32 / 1000.0` conversion: spawn `rate` particles if
the system's life has not expired, decrement the system life, run the
per-particle pass, and clamp the cursor.  Returns the new state together
with the list of instance-buffer writes issued to the queue. -/
def ParticleSystem.update (s : ParticleSystem) (delta : ℚ) :
    ParticleSystem × List (ℕ × Particle) :=
  let s1 := spawnPhase s
  let s2 := { s1 with life := s1.life - delta }
  let r := stepParticles delta s2.gravity s2.particles 0
  let s3 := { s2 with particles := r.1 }
  let s4 := if r.1.length < s3.searchPos then { s3 with searchPos := r.1.length - 1 } else s3
  (s4, r.2)

/-- `ParticleSystem::set_max_particles(max, device)`:
`self.particles.resize(max, Particle::default())` —
`Vec::resize` keeps the existing elements up to `max` and appends default
particles when growing — followed by re-creating the instance buffer from
`self.particles.to_raw()` (derived data, not stored separately here). -/
def ParticleSystem.setMaxParticles (s : ParticleSystem) (max : ℕ) : ParticleSystem :=
  { s with particles :=
      s.particles.take max ++ List.replicate (max - s.particles.length) Particle.default }

/-- The number of particles with `life > 0`. -/
def aliveCount (s : ParticleSystem) : ℕ :=
  s.particles.countP (fun p => decide (0 < p.life))

/-- Panic-aware mirror of `findFrom`: every `self.particles[i]` access is
bounds-checked; `none` marks a Rust index-out-of-bounds panic. -/
def findFromChecked (ps : List Particle) : ℕ → ℕ → Option (Option ℕ)
  | _, 0 => some none
  | start, fuel + 1 =>
    if start < ps.length then
      if (ps.getD start Particle.default).life < 0 then some (some start)
      else findFromChecked ps (start + 1) fuel
    else none

/-- Panic-aware mirror of `find_unused_particle`. -/
def findUnusedParticleChecked (ps : List Particle) (searchPos : ℕ) : Option ℕ :=
  (findFromChecked ps searchPos (ps.length - searchPos)).bind fun r1 =>
    match r1 with
    | some i => some i
    | none =>
      (findFromChecked ps 0 searchPos).bind fun r2 =>
        match r2 with
        | some i => some i
        | none => some 0

/-- Panic-aware mirror of one spawn iteration: the find scan and the
`self.particles[idx] = ...` store are both bounds-checked. -/
def spawnOneChecked (s : ParticleSystem) : Option ParticleSystem :=
  (findUnusedParticleChecked s.particles s.searchPos).bind fun idx =>
    if idx < s.particles.length then
      let np := newParticle s.rand s.bounds s.position
      some { s with particles := s.particles.set idx np.1, searchPos := idx, rand := np.2 }
    else none

/-- Panic-aware mirror of the spawn loop. -/
def spawnLoopChecked (s : ParticleSystem) : ℕ → Option ParticleSystem
  | 0 => some s
  | n + 1 => (spawnOneChecked s).bind fun s' => spawnLoopChecked s' n

/-- Panic-aware mirror of `ParticleSystem::update` (state part): `none`
marks a panic — an out-of-bounds `self.particles[_]` access, or the
debug-mode overflow of `self.particles.len() - 1` in the final cursor
clamp when the pool is empty. -/
def updateChecked (s : ParticleSystem) (delta : ℚ) : Option ParticleSystem :=
  (if 0 ≤ s.life then spawnLoopChecked s s.rate else some s).bind fun s1 =>
    let s2 := { s1 with life := s1.life - delta }
    let ps := (stepParticles delta s2.gravity s2.particles 0).1
    let s3 := { s2 with particles := ps }
    if ps.length < s3.searchPos then
      if ps.length = 0 then none
      else some { s3 with searchPos := ps.length - 1 }
    else some s3

/-- The error type of `src/error.rs` as used by
`ParticleSystemRenderer::add_light`: only the variant relevant to the
claims is carried (index, max_lights). -/
inductive BrumousError where
  | InvalidLightIndex (idx maxLights : ℕ)
deriving DecidableEq

/-- The GPU light record of `src/particle_system_renderer.rs`:
`{ position: [f32; 4], color: [f32; 4] }`. -/
structure Light where
  position : V4
  color    : V4
deriving DecidableEq

/-- `Light::size()`: `size_of::<Light>()` for the `repr(C)` record of two
`[f32; 4]` fields = 32 bytes. -/
def Light.size : ℕ := 32

/-- The `add_light`-relevant state of `ParticleSystemRenderer`. -/
structure ParticleSystemRenderer where
  maxLights : ℕ
deriving DecidableEq

/-- `ParticleSystemRenderer::add_light(queue, position, color, idx)`
(`src/particle_system_renderer.rs`, lines 244-262): error
`InvalidLightIndex` when `idx >= self.max_lights`, otherwise a single
light-buffer write at byte offset `idx * Light::size()`.  The successful
result is the list of buffer writes issued (offset, record). -/
def ParticleSystemRenderer.addLight (r : ParticleSystemRenderer)
    (position color : V4) (idx : ℕ) : Except BrumousError (List (ℕ × Light)) :=
  if r.maxLights ≤ idx then
    .error (.InvalidLightIndex idx r.maxLights)
  else
    .ok [(idx * Light.size, ⟨position, color⟩)]

/-- The effect of the per-particle pass on a single particle at pool index
`i`: decrement life, then integrate physics when still alive (used to
describe `stepParticles`; proved to coincide with it in
`stepParticles_fst`). -/
def stepOne (delta gravity : ℚ) (p : Particle) : Particle :=
  let p1 : Particle := { p with life := p.life - delta }
  if 0 < p1.life then p1.update delta gravity else p1

/-- Position of pool index `i` in the scan order of
`find_unused_particle` starting at `cursor`: indices `cursor..len` come
first, then `0..cursor`. -/
def cyclicRank (cursor len i : ℕ) : ℕ :=
  if cursor ≤ i then i - cursor else i + (len - cursor)

/-- Modelled from the spec's words (for comparison with the
implementation): one scan loop looking for the first particle with
`life <= 0` — note the non-strict comparison — starting at `start` for
`fuel` indices. -/
def findFromLe (ps : List Particle) : ℕ → ℕ → Option ℕ
  | _, 0 => none
  | start, fuel + 1 =>
    if (ps.getD start Particle.default).life ≤ 0 then some start
    else findFromLe ps (start + 1) fuel

/-- Modelled from the spec's words: `find_unused_slot()` "scans forward
from the cursor for the first particle with `life <= 0`, wrapping around
once; returns index 0 if none found". -/
def specFindUnusedLe (ps : List Particle) (cursor : ℕ) : ℕ :=
  match findFromLe ps cursor (ps.length - cursor) with
  | some i => i
  | none =>
    match findFromLe ps 0 cursor with
    | some i => i
    | none => 0

/-- A zero-width attribute descriptor. -/
def zeroSpread : Spread := ⟨0, 0⟩

/-- Concrete bounds for the test scenario of the spec: sampled particle
lifetimes are guaranteed to lie in `[5, 10]` (`mean 7.5`, `variance 2.5`);
every other attribute is sampled from a zero-width descriptor. -/
def exampleBounds : ParticleSystemBounds :=
  { spawnRange := (zeroSpread, zeroSpread, zeroSpread)
    initVel := (zeroSpread, zeroSpread, zeroSpread)
    rot := (zeroSpread, zeroSpread, zeroSpread, zeroSpread)
    color := (zeroSpread, zeroSpread, zeroSpread, zeroSpread)
    life := ⟨15 / 2, 5 / 2⟩
    mass := zeroSpread
    scale := zeroSpread }

/-- The concrete scenario of the spec: `max = 10`, `rate = 3`,
system `life = 1000.0`, lifetime bounds guaranteeing `[5, 10]`. -/
def exampleDescriptor : ParticleSystemDescriptor :=
  { max := 10, rate := 3, pos := ⟨0, 0, 0⟩, life := 1000, gravity := -981 / 100
    bounds := exampleBounds }

/-- The spec's concrete scenario parameterized over the bounds, spawn
position and gravity: `max = 10`, `rate = 3`, system `life = 1000.0`. -/
def scenarioDescriptor (b : ParticleSystemBounds) (pos : V3) (g : ℚ) :
    ParticleSystemDescriptor :=
  { max := 10, rate := 3, pos := pos, life := 1000, gravity := g, bounds := b }

/-- A small two-slot system used to exhibit `set_max_particles`
behaviour: `max = 2`, `rate = 1`. -/
def smallDescriptor : ParticleSystemDescriptor :=
  { max := 2, rate := 1, pos := ⟨0, 0, 0⟩, life := 1000, gravity := -981 / 100
    bounds := exampleBounds }

/-- A particle whose remaining life is `1.0`. -/
def aliveParticle : Particle := { Particle.default with life := 1 }

/-- A particle whose remaining life is `0.5`. -/
def halfLifeParticle : Particle := { Particle.default with life := 1 / 2 }

/-- A system holding a single just-alive particle and nothing else
(`rate = 0`, already-expired system life, so no spawning occurs). -/
def expiringSystem : ParticleSystem :=
  { particles := [halfLifeParticle]
    searchPos := 0
    rate := 0
    position := ⟨0, 0, 0⟩
    life := -1
    gravity := -981 / 100
    bounds := exampleBounds
    rand := Randf32.new }

/-- A non-empty single-slot pool whose cursor points past the pool
length — the state produced by `set_max_particles` shrinking the pool
below the current cursor (the source does not re-clamp the cursor on
resize); the next `update` then scans `0..search_pos` past the pool end. -/
def staleCursorSystem : ParticleSystem :=
  { particles := [aliveParticle]
    searchPos := 2
    rate := 1
    position := ⟨0, 0, 0⟩
    life := 1000
    gravity := -981 / 100
    bounds := exampleBounds
    rand := Randf32.new }

/-- A particle that the strict `life < 0.0` scan recognises as dead. -/
def deadParticle : Particle := { Particle.default with life := -1 }

/-- The number of pool indices whose particle is dead (`life <= 0`) in
`old` and alive (`life > 0`) in `new`. -/
def deadAliveTransitions (old new : ParticleSystem) : ℕ :=
  ((Finset.range old.particles.length).filter fun i =>
    (old.particles.getD i Particle.default).life ≤ 0 ∧
      0 < (new.particles.getD i Particle.default).life).card

/-! ## Supporting lemmas -/

lemma lg_spec {n : ℕ} (h1 : 1 ≤ n) (h2 : n < 2 ^ 53) :
    2 ^ lg n ≤ n ∧ n < 2 ^ (lg n + 1) ∧ lg n ≤ 52 := by
  have hged : 2 ^ lg n ≤ n := by
    refine Nat.findGreatest_spec (P := fun k => 2 ^ k ≤ n) (m := 0) (by norm_num) ?_
    simpa using h1
  have hle53 : lg n ≤ 53 := Nat.findGreatest_le 53
  have h52 : lg n ≤ 52 := by
    rcases Nat.lt_or_ge (lg n) 53 with h | h
    · omega
    · exfalso
      have he : lg n = 53 := le_antisymm hle53 h
      rw [he] at hged
      omega
  refine ⟨hged, ?_, h52⟩
  by_contra hub
  push_neg at hub
  have hgr := Nat.findGreatest_is_greatest (P := fun k => 2 ^ k ≤ n) (n := 53)
    (k := lg n + 1) (by unfold lg; omega) (by omega)
  exact hgr hub

lemma rne_nonneg {x : ℚ} (hx : 0 ≤ x) : 0 ≤ rne x := by
  have h0 : (0 : ℤ) ≤ ⌊x⌋ := Int.floor_nonneg.mpr hx
  unfold rne
  split_ifs <;> omega

lemma rne_le_of_lt {x : ℚ} {n : ℤ} (h : x < (n : ℚ)) : rne x ≤ n := by
  have hf : ⌊x⌋ < n := by
    have := Int.floor_le_floor h.le
    have hfl : ⌊x⌋ ≤ x := Int.floor_le x
    exact Int.floor_lt.mpr h
  unfold rne
  split_ifs <;> omega

lemma castF32_nonneg (val : ℕ) : 0 ≤ castF32 val := by
  unfold castF32
  split
  · exact le_refl 0
  · refine div_nonneg ?_ (by positivity)
    have h : (0 : ℤ) ≤ rne (((val * 2 ^ 23 : ℕ) : ℚ) / ((2 ^ lg val : ℕ) : ℚ)) := by
      refine rne_nonneg (div_nonneg ?_ ?_) <;> positivity
    exact_mod_cast h

lemma castF32_le_one {val : ℕ} (h : val < 2 ^ 53) : castF32 val ≤ 1 := by
  unfold castF32
  split
  · norm_num
  · rename_i hne
    obtain ⟨hlow, hup, h52⟩ := lg_spec (Nat.one_le_iff_ne_zero.mpr hne) h
    set L := lg val with hL
    have hxlt : ((val * 2 ^ 23 : ℕ) : ℚ) / ((2 ^ L : ℕ) : ℚ) < ((2 ^ 24 : ℤ) : ℚ) := by
      rw [div_lt_iff₀ (by positivity)]
      have hn : (val * 2 ^ 23 : ℕ) < 2 ^ 24 * 2 ^ L := by
        calc val * 2 ^ 23 < 2 ^ (L + 1) * 2 ^ 23 :=
              mul_lt_mul_of_pos_right hup (by norm_num)
          _ = 2 ^ 24 * 2 ^ L := by ring
      exact_mod_cast hn
    have hrle : rne (((val * 2 ^ 23 : ℕ) : ℚ) / ((2 ^ L : ℕ) : ℚ)) ≤ 2 ^ 24 :=
      rne_le_of_lt hxlt
    rw [div_le_one (by positivity)]
    have hden : (2 ^ 24 : ℚ) ≤ ((2 ^ (76 - L) : ℕ) : ℚ) := by
      have : (2 ^ 24 : ℕ) ≤ 2 ^ (76 - L) := Nat.pow_le_pow_right (by norm_num) (by omega)
      exact_mod_cast this
    calc ((rne (((val * 2 ^ 23 : ℕ) : ℚ) / ((2 ^ L : ℕ) : ℚ)) : ℤ) : ℚ)
        ≤ ((2 ^ 24 : ℤ) : ℚ) := by exact_mod_cast hrle
      _ ≤ ((2 ^ (76 - L) : ℕ) : ℚ) := by push_cast; exact_mod_cast hden

lemma xorshift_lt (s : ℕ) : xorshift s < U64 :=
  Nat.mod_lt _ (by norm_num [U64])

lemma next_val_mem (r : Randf32) : 0 ≤ r.next.1 ∧ r.next.1 ≤ 1 := by
  have hval : xorshift r.state >>> 11 < 2 ^ 53 := by
    have hs := xorshift_lt r.state
    have : xorshift r.state >>> 11 = xorshift r.state / 2 ^ 11 :=
      Nat.shiftRight_eq_div_pow _ _
    rw [this]
    refine Nat.div_lt_of_lt_mul ?_
    calc xorshift r.state < U64 := hs
      _ = 2 ^ 11 * 2 ^ 53 := by norm_num [U64]
  exact ⟨castF32_nonneg _, castF32_le_one hval⟩

lemma inRange_fst (r : Randf32) (lo hi : ℚ) :
    (r.inRange lo hi).1 = (hi - lo) * r.next.1 + lo := rfl

lemma spread_fst (r : Randf32) (s : Spread) :
    (r.spread s).1 = s.mean + (r.inRange (-1) 1).1 * s.variance := rfl

lemma inRange_mem (r : Randf32) {lo hi : ℚ} (h : lo ≤ hi) :
    lo ≤ (r.inRange lo hi).1 ∧ (r.inRange lo hi).1 ≤ hi := by
  obtain ⟨h0, h1⟩ := next_val_mem r
  rw [inRange_fst]
  constructor
  · have : 0 ≤ (hi - lo) * r.next.1 := mul_nonneg (by linarith) h0
    linarith
  · have : (hi - lo) * r.next.1 ≤ (hi - lo) * 1 :=
      mul_le_mul_of_nonneg_left h1 (by linarith)
    linarith

lemma spread_mem (r : Randf32) (s : Spread) (hv : 0 ≤ s.variance) :
    s.mean - s.variance ≤ (r.spread s).1 ∧ (r.spread s).1 ≤ s.mean + s.variance := by
  obtain ⟨hlo, hhi⟩ := inRange_mem r (show (-1 : ℚ) ≤ 1 by norm_num)
  rw [spread_fst]
  set u := (r.inRange (-1) 1).1 with hu
  constructor
  · have : -s.variance ≤ u * s.variance := by nlinarith
    linarith
  · have : u * s.variance ≤ s.variance := by nlinarith
    linarith

lemma findFrom_eq_none {ps : List Particle} {start fuel : ℕ}
    (h : ∀ j, start ≤ j → j < start + fuel → ¬ (ps.getD j Particle.default).life < 0) :
    findFrom ps start fuel = none := by
  induction fuel generalizing start with
  | zero => rfl
  | succ n ih =>
    rw [findFrom, if_neg (h start le_rfl (by omega))]
    exact ih fun j hj1 hj2 => h j (by omega) (by omega)

lemma findFrom_none_forall {ps : List Particle} {start fuel : ℕ}
    (h : findFrom ps start fuel = none) :
    ∀ j, start ≤ j → j < start + fuel → ¬ (ps.getD j Particle.default).life < 0 := by
  induction fuel generalizing start with
  | zero => omega
  | succ n ih =>
    rw [findFrom] at h
    by_cases hd : (ps.getD start Particle.default).life < 0
    · rw [if_pos hd] at h
      exact absurd h (by simp)
    · rw [if_neg hd] at h
      intro j hj1 hj2
      rcases eq_or_lt_of_le hj1 with rfl | hlt
      · exact hd
      · exact ih h j (by omega) (by omega)

lemma findFrom_some {ps : List Particle} {start fuel i : ℕ}
    (h : findFrom ps start fuel = some i) :
    start ≤ i ∧ i < start + fuel ∧ (ps.getD i Particle.default).life < 0 ∧
      ∀ j, start ≤ j → j < i → ¬ (ps.getD j Particle.default).life < 0 := by
  induction fuel generalizing start with
  | zero => exact absurd h (by simp [findFrom])
  | succ n ih =>
    rw [findFrom] at h
    by_cases hd : (ps.getD start Particle.default).life < 0
    · rw [if_pos hd] at h
      obtain rfl : start = i := by simpa using h
      exact ⟨le_rfl, by omega, hd, fun j hj1 hj2 => by omega⟩
    · rw [if_neg hd] at h
      obtain ⟨h1, h2, h3, h4⟩ := ih h
      refine ⟨by omega, by omega, h3, ?_⟩
      intro j hj1 hj2
      rcases eq_or_lt_of_le hj1 with rfl | hlt
      · exact hd
      · exact h4 j (by omega) hj2

lemma findUnusedParticle_first {ps : List Particle} {cursor i : ℕ}
    (h : findFrom ps cursor (ps.length - cursor) = some i) :
    findUnusedParticle ps cursor = i := by
  unfold findUnusedParticle
  rw [h]

lemma findUnusedParticle_second {ps : List Particle} {cursor i : ℕ}
    (h1 : findFrom ps cursor (ps.length - cursor) = none)
    (h2 : findFrom ps 0 cursor = some i) :
    findUnusedParticle ps cursor = i := by
  unfold findUnusedParticle
  rw [h1, h2]

lemma findUnusedParticle_fallback {ps : List Particle} {cursor : ℕ}
    (h1 : findFrom ps cursor (ps.length - cursor) = none)
    (h2 : findFrom ps 0 cursor = none) :
    findUnusedParticle ps cursor = 0 := by
  unfold findUnusedParticle
  rw [h1, h2]

lemma findUnusedParticle_lt {ps : List Particle} {cursor : ℕ}
    (hne : 0 < ps.length) (hc : cursor ≤ ps.length) :
    findUnusedParticle ps cursor < ps.length := by
  rcases h1 : findFrom ps cursor (ps.length - cursor) with _ | i
  · rcases h2 : findFrom ps 0 cursor with _ | i
    · rw [findUnusedParticle_fallback h1 h2]
      exact hne
    · rw [findUnusedParticle_second h1 h2]
      obtain ⟨_, hlt, _, _⟩ := findFrom_some h2
      omega
  · rw [findUnusedParticle_first h1]
    obtain ⟨_, hlt, _, _⟩ := findFrom_some h1
    omega

lemma findUnusedParticle_of_none {ps : List Particle} {cursor : ℕ}
    (hc : cursor ≤ ps.length)
    (h : ∀ i, i < ps.length → ¬ (ps.getD i Particle.default).life < 0) :
    findUnusedParticle ps cursor = 0 :=
  findUnusedParticle_fallback
    (findFrom_eq_none fun j hj1 hj2 => h j (by omega))
    (findFrom_eq_none fun j hj1 hj2 => h j (by omega))

lemma findUnusedParticle_min {ps : List Particle} {cursor : ℕ}
    (hc : cursor ≤ ps.length) {i : ℕ} (hi : i < ps.length)
    (hdead : (ps.getD i Particle.default).life < 0) :
    findUnusedParticle ps cursor < ps.length ∧
      (ps.getD (findUnusedParticle ps cursor) Particle.default).life < 0 ∧
      cyclicRank cursor ps.length (findUnusedParticle ps cursor) ≤
        cyclicRank cursor ps.length i := by
  rcases h1 : findFrom ps cursor (ps.length - cursor) with _ | r
  · have hnone1 := findFrom_none_forall h1
    rcases h2 : findFrom ps 0 cursor with _ | r
    · have hnone2 := findFrom_none_forall h2
      exfalso
      rcases Nat.lt_or_ge i cursor with hic | hic
      · exact hnone2 i (by omega) (by omega) hdead
      · exact hnone1 i hic (by omega) hdead
    · rw [findUnusedParticle_second h1 h2]
      obtain ⟨_, hr2, hr3, hr4⟩ := findFrom_some h2
      have hic : i < cursor := by
        by_contra hge
        exact hnone1 i (by omega) (by omega) hdead
      have hir : r ≤ i := by
        by_contra hgt
        exact hr4 i (by omega) (by omega) hdead
      refine ⟨by omega, hr3, ?_⟩
      unfold cyclicRank
      rw [if_neg (by omega), if_neg (by omega)]
      omega
  · rw [findUnusedParticle_first h1]
    obtain ⟨hr1, hr2, hr3, hr4⟩ := findFrom_some h1
    refine ⟨by omega, hr3, ?_⟩
    unfold cyclicRank
    rw [if_pos hr1]
    rcases Nat.lt_or_ge i cursor with hic | hic
    · rw [if_neg (by omega)]
      omega
    · rw [if_pos hic]
      have hir : r ≤ i := by
        by_contra hgt
        exact hr4 i (by omega) (by omega) hdead
      omega

lemma getD_set_ne {ps : List Particle} {idx i : ℕ} (h : idx ≠ i) (q d : Particle) :
    (ps.set idx q).getD i d = ps.getD i d := by
  simp [List.getD_eq_getElem?_getD, List.getElem?_set_ne h]

lemma getD_set_self {ps : List Particle} {idx : ℕ} (h : idx < ps.length) (q d : Particle) :
    (ps.set idx q).getD idx d = q := by
  simp [List.getD_eq_getElem?_getD, List.getElem?_set_eq_of_lt _ h]

lemma getD_replicate {n i : ℕ} (hi : i < n) (a d : Particle) :
    (List.replicate n a).getD i d = a := by
  simp [List.getD_eq_getElem?_getD, List.getElem?_replicate, hi]

lemma particle_update_life (p : Particle) (delta gravity : ℚ) :
    (p.update delta gravity).life = p.life := rfl

lemma stepOne_life (delta gravity : ℚ) (p : Particle) :
    (stepOne delta gravity p).life = p.life - delta := by
  simp only [stepOne]
  split <;> rfl

lemma stepParticles_fst (delta gravity : ℚ) (ps : List Particle) (i : ℕ) :
    (stepParticles delta gravity ps i).1 = ps.map (stepOne delta gravity) := by
  induction ps generalizing i with
  | nil => rfl
  | cons p rest ih =>
    simp only [stepParticles, stepOne, List.map_cons]
    split
    · simp [ih]
    · simp [ih]

lemma stepParticles_writes_mem (delta gravity : ℚ) (ps : List Particle) (i off : ℕ)
    (q : Particle) :
    (off, q) ∈ (stepParticles delta gravity ps i).2 ↔
      ∃ j, j < ps.length ∧ off = (i + j) * instanceSize ∧
        0 < (ps.getD j Particle.default).life - delta ∧
        q = stepOne delta gravity (ps.getD j Particle.default) := by
  induction ps generalizing i with
  | nil => simp [stepParticles]
  | cons p rest ih =>
    simp only [stepParticles]
    by_cases h : 0 < p.life - delta
    · have hc : 0 < ({ p with life := p.life - delta } : Particle).life := h
      rw [if_pos hc]
      simp only [List.mem_cons, ih]
      constructor
      · rintro (he | ⟨j, hj, hoff, hd, hq⟩)
        · rw [Prod.mk.injEq] at he
          obtain ⟨rfl, rfl⟩ := he
          exact ⟨0, by simp, by simp, by simpa using h, by simp [stepOne, hc]⟩
        · refine ⟨j + 1, by simpa using hj, ?_, by simpa using hd, by simpa using hq⟩
          rw [hoff]
          congr 1
          omega
      · rintro ⟨j, hj, hoff, hd, hq⟩
        cases j with
        | zero =>
          left
          simp only [List.getD_cons_zero] at hd hq
          rw [Prod.mk.injEq]
          refine ⟨by simpa using hoff, ?_⟩
          rw [hq]
          simp [stepOne, hc]
        | succ j =>
          right
          refine ⟨j, by simpa using hj, ?_, by simpa using hd, by simpa using hq⟩
          rw [hoff]
          congr 1
          omega
    · have hc : ¬ 0 < ({ p with life := p.life - delta } : Particle).life := h
      rw [if_neg hc]
      rw [ih]
      constructor
      · rintro ⟨j, hj, hoff, hd, hq⟩
        refine ⟨j + 1, by simpa using hj, ?_, by simpa using hd, by simpa using hq⟩
        rw [hoff]
        congr 1
        omega
      · rintro ⟨j, hj, hoff, hd, hq⟩
        cases j with
        | zero =>
          simp only [List.getD_cons_zero] at hd
          exact absurd hd h
        | succ j =>
          refine ⟨j, by simpa using hj, ?_, by simpa using hd, by simpa using hq⟩
          rw [hoff]
          congr 1
          omega

lemma spawnOne_particles_length (s : ParticleSystem) :
    (spawnOne s).particles.length = s.particles.length := by
  simp [spawnOne]

lemma spawnLoop_particles_length (s : ParticleSystem) (n : ℕ) :
    (spawnLoop s n).particles.length = s.particles.length := by
  induction n generalizing s with
  | zero => rfl
  | succ n ih => rw [spawnLoop, ih, spawnOne_particles_length]

lemma spawnLoop_fields (s : ParticleSystem) (n : ℕ) :
    (spawnLoop s n).rate = s.rate ∧ (spawnLoop s n).life = s.life ∧
      (spawnLoop s n).gravity = s.gravity := by
  induction n generalizing s with
  | zero => exact ⟨rfl, rfl, rfl⟩
  | succ n ih => exact (ih (spawnOne s))

lemma spawnPhase_particles_length (s : ParticleSystem) :
    (spawnPhase s).particles.length = s.particles.length := by
  unfold spawnPhase
  split
  · exact spawnLoop_particles_length s s.rate
  · rfl

lemma update_particles_length (s : ParticleSystem) (delta : ℚ) :
    (s.update delta).1.particles.length = s.particles.length := by
  simp only [ParticleSystem.update]
  split <;>
    simp [stepParticles_fst, spawnPhase_particles_length]

lemma spawnLoop_changed (s : ParticleSystem) (n : ℕ) :
    ∃ I : Finset ℕ, I.card ≤ n ∧ ∀ i ∉ I,
      (spawnLoop s n).particles.getD i Particle.default =
        s.particles.getD i Particle.default := by
  induction n generalizing s with
  | zero => exact ⟨∅, by simp, fun i _ => rfl⟩
  | succ n ih =>
    obtain ⟨I, hcard, hI⟩ := ih (spawnOne s)
    refine ⟨insert (findUnusedParticle s.particles s.searchPos) I, ?_, ?_⟩
    · calc (insert (findUnusedParticle s.particles s.searchPos) I).card
          ≤ I.card + 1 := Finset.card_insert_le _ _
        _ ≤ n + 1 := by omega
    · intro i hi
      rw [Finset.mem_insert] at hi
      push_neg at hi
      rw [spawnLoop, hI i hi.2]
      exact getD_set_ne hi.1.symm _ _

lemma spawnPhase_gravity (s : ParticleSystem) : (spawnPhase s).gravity = s.gravity := by
  unfold spawnPhase
  split
  · exact (spawnLoop_fields s s.rate).2.2
  · rfl

lemma update_particles (s : ParticleSystem) (delta : ℚ) :
    (s.update delta).1.particles =
      (spawnPhase s).particles.map (stepOne delta s.gravity) := by
  simp only [ParticleSystem.update]
  split <;> simp [stepParticles_fst, spawnPhase_gravity]

lemma update_writes (s : ParticleSystem) (delta : ℚ) :
    (s.update delta).2 =
      (stepParticles delta s.gravity (spawnPhase s).particles 0).2 := by
  simp only [ParticleSystem.update]
  rw [spawnPhase_gravity]

lemma getD_map_lt {ps : List Particle} {i : ℕ} (h : i < ps.length)
    (f : Particle → Particle) (d d' : Particle) :
    (ps.map f).getD i d = f (ps.getD i d') := by
  have he : ps[i]? = some ps[i] := List.getElem?_eq_getElem h
  simp [List.getD_eq_getElem?_getD, List.getElem?_map, he]

lemma countP_replicate (p : Particle → Bool) (n : ℕ) (a : Particle) :
    (List.replicate n a).countP p = if p a then n else 0 := by
  induction n with
  | zero => simp
  | succ n ih =>
    rw [List.replicate_succ, List.countP_cons, ih]
    split <;> simp [*]

lemma newParticle_life_mem (r : Randf32) (b : ParticleSystemBounds) (pos : V3)
    (hv : 0 ≤ b.life.variance) :
    b.life.mean - b.life.variance ≤ (newParticle r b pos).1.life ∧
      (newParticle r b pos).1.life ≤ b.life.mean + b.life.variance := by
  obtain ⟨r', he⟩ : ∃ r' : Randf32, (newParticle r b pos).1.life = (r'.spread b.life).1 := ⟨_, rfl⟩
  rw [he]
  exact spread_mem r' b.life hv

lemma spawnLoop_collapses (n : ℕ) (hn : 0 < n) :
    ∀ s : ParticleSystem,
      (∀ i, i < s.particles.length → 0 ≤ (s.particles.getD i Particle.default).life) →
      s.searchPos ≤ s.particles.length →
      (∀ r : Randf32, 0 ≤ (newParticle r s.bounds s.position).1.life) →
      ∃ r' : Randf32, spawnLoop s n =
        { s with particles := s.particles.set 0 (newParticle r' s.bounds s.position).1,
                 searchPos := 0, rand := (newParticle r' s.bounds s.position).2 } := by
  induction n with
  | zero => omega
  | succ n ih =>
    intro s hnn hcur hsample
    have hfind : findUnusedParticle s.particles s.searchPos = 0 :=
      findUnusedParticle_of_none hcur fun i hi => not_lt.mpr (hnn i hi)
    have hone : spawnOne s =
        { s with particles := s.particles.set 0 (newParticle s.rand s.bounds s.position).1,
                 searchPos := 0, rand := (newParticle s.rand s.bounds s.position).2 } := by
      simp only [spawnOne, hfind]
    rcases Nat.eq_zero_or_pos n with h0 | hpos
    · subst h0
      exact ⟨s.rand, by rw [spawnLoop, hone]; rfl⟩
    · have hnn' : ∀ i, i < (spawnOne s).particles.length →
          0 ≤ ((spawnOne s).particles.getD i Particle.default).life := by
        rw [hone]
        intro i hi
        simp only [List.length_set] at hi
        rcases Nat.eq_zero_or_pos i with rfl | hip
        · rw [getD_set_self (by omega) _ _]
          exact hsample s.rand
        · rw [getD_set_ne (by omega) _ _]
          exact hnn i hi
      have hcur' : (spawnOne s).searchPos ≤ (spawnOne s).particles.length := by
        rw [hone]
        simp
      have hsample' : ∀ r : Randf32,
          0 ≤ (newParticle r (spawnOne s).bounds (spawnOne s).position).1.life := by
        rw [hone]
        exact hsample
      obtain ⟨r', hr⟩ := ih hpos (spawnOne s) hnn' hcur' hsample'
      refine ⟨r', ?_⟩
      rw [spawnLoop, hr, hone]
      simp [List.set_set]

lemma findFromChecked_eq {ps : List Particle} {fuel : ℕ} :
    ∀ {start : ℕ}, start + fuel ≤ ps.length →
      findFromChecked ps start fuel = some (findFrom ps start fuel) := by
  induction fuel with
  | zero => intro start _; rfl
  | succ n ih =>
    intro start h
    have hlt : start < ps.length := by omega
    rw [findFromChecked, findFrom, if_pos hlt]
    by_cases hd : (ps.getD start Particle.default).life < 0
    · rw [if_pos hd, if_pos hd]
    · rw [if_neg hd, if_neg hd]
      exact ih (by omega)

lemma findUnusedParticleChecked_eq {ps : List Particle} {cursor : ℕ}
    (hc : cursor ≤ ps.length) :
    findUnusedParticleChecked ps cursor = some (findUnusedParticle ps cursor) := by
  unfold findUnusedParticleChecked findUnusedParticle
  rw [findFromChecked_eq (by omega), findFromChecked_eq (by omega : 0 + cursor ≤ ps.length),
    Option.some_bind]
  rcases findFrom ps cursor (ps.length - cursor) with _ | i
  · rw [Option.some_bind]
    rcases findFrom ps 0 cursor with _ | i <;> rfl
  · rfl

lemma spawnOneChecked_eq {s : ParticleSystem} (hne : 0 < s.particles.length)
    (hc : s.searchPos ≤ s.particles.length) :
    spawnOneChecked s = some (spawnOne s) := by
  unfold spawnOneChecked spawnOne
  rw [findUnusedParticleChecked_eq hc]
  simp [findUnusedParticle_lt hne hc]

lemma spawnOne_searchPos (s : ParticleSystem) :
    (spawnOne s).searchPos = findUnusedParticle s.particles s.searchPos := rfl

lemma spawnLoopChecked_eq :
    ∀ (n : ℕ) (s : ParticleSystem), 0 < s.particles.length →
      s.searchPos ≤ s.particles.length →
      spawnLoopChecked s n = some (spawnLoop s n) ∧
        0 < (spawnLoop s n).particles.length ∧
        (spawnLoop s n).searchPos ≤ (spawnLoop s n).particles.length
  | 0, s, hne, hc => ⟨rfl, hne, hc⟩
  | n + 1, s, hne, hc => by
    have h1 := spawnOneChecked_eq hne hc
    have hne' : 0 < (spawnOne s).particles.length := by
      rw [spawnOne_particles_length]; exact hne
    have hc' : (spawnOne s).searchPos ≤ (spawnOne s).particles.length := by
      rw [spawnOne_particles_length, spawnOne_searchPos]
      exact le_of_lt (findUnusedParticle_lt hne hc)
    obtain ⟨ih1, ih2, ih3⟩ := spawnLoopChecked_eq n (spawnOne s) hne' hc'
    refine ⟨?_, ih2, ih3⟩
    rw [spawnLoopChecked, h1, Option.some_bind, ih1, spawnLoop]

lemma spawnPhase_searchPos_le (s : ParticleSystem) (hne : 0 < s.particles.length)
    (hc : s.searchPos ≤ s.particles.length) :
    (spawnPhase s).searchPos ≤ (spawnPhase s).particles.length ∧
      0 < (spawnPhase s).particles.length := by
  unfold spawnPhase
  split
  · obtain ⟨_, h2, h3⟩ := spawnLoopChecked_eq s.rate s hne hc
    exact ⟨h3, h2⟩
  · exact ⟨hc, hne⟩

lemma updateChecked_eq {s : ParticleSystem} (delta : ℚ) (hne : 0 < s.particles.length)
    (hc : s.searchPos ≤ s.particles.length) :
    updateChecked s delta = some (s.update delta).1 := by
  have hstep : ∀ t : ParticleSystem, (stepParticles delta t.gravity t.particles 0).1.length
      = t.particles.length := fun t => by rw [stepParticles_fst]; simp
  obtain ⟨hsp, hpos⟩ := spawnPhase_searchPos_le s hne hc
  unfold updateChecked ParticleSystem.update spawnPhase
  unfold spawnPhase at hsp hpos
  by_cases hl : 0 ≤ s.life
  · rw [if_pos hl] at hsp hpos
    have hlen : (stepParticles delta (spawnLoop s s.rate).gravity
        (spawnLoop s s.rate).particles 0).1.length = (spawnLoop s s.rate).particles.length := by
      rw [stepParticles_fst]; simp
    have hcond : ¬ (stepParticles delta (spawnLoop s s.rate).gravity
        (spawnLoop s s.rate).particles 0).1.length < (spawnLoop s s.rate).searchPos := by
      rw [hlen]; omega
    simp only [if_pos hl, (spawnLoopChecked_eq s.rate s hne hc).1, Option.some_bind,
      if_neg hcond]
  · rw [if_neg hl] at hsp hpos
    have hlen : (stepParticles delta s.gravity s.particles 0).1.length
        = s.particles.length := by
      rw [stepParticles_fst]; simp
    have hcond : ¬ (stepParticles delta s.gravity s.particles 0).1.length < s.searchPos := by
      rw [hlen]; omega
    simp only [if_neg hl, Option.some_bind, if_neg hcond]

/-! ## Claim theorems -/

/-- C7 (counterexample): for the reachable generator state
`7650297886450228676`, `Randf32::next()` returns exactly `1.0` — the
`as f32` cast rounds `(2 ^ 53 - 1) / 2 ^ 53` up to `1.0` — so the claimed
range `[0, 1)` is violated, and `in_range(0.0..1.0)`, which multiplies
this value by `1.0` and adds `0.0` (both exact), returns `range.end`. -/
theorem randf32_next_attains_one :
    (Randf32.next ⟨7650297886450228676⟩).1 = 1 ∧
      ¬ (Randf32.next ⟨7650297886450228676⟩).1 < 1 ∧
      (Randf32.inRange ⟨7650297886450228676⟩ 0 1).1 = 1 := by
  refine ⟨by decide!, by decide!, by decide!⟩

/-- C7 (amended): for every internal generator state, `Randf32::next()`
returns a value in the closed interval `[0, 1]` (the right endpoint is
attained, see `randf32_next_attains_one`), and for `range.start ≤
range.end`, `in_range(range)` returns a value in
`[range.start, range.end]`. -/
theorem randf32_next_inRange_bounds (r : Randf32) (lo hi : ℚ) (h : lo ≤ hi) :
    0 ≤ r.next.1 ∧ r.next.1 ≤ 1 ∧
      lo ≤ (r.inRange lo hi).1 ∧ (r.inRange lo hi).1 ≤ hi := by
  obtain ⟨h0, h1⟩ := next_val_mem r
  obtain ⟨h2, h3⟩ := inRange_mem r h
  exact ⟨h0, h1, h2, h3⟩

/-- Witness for `randf32_next_inRange_bounds` at the default seed and the
range `2.0..5.0`. -/
theorem randf32_next_inRange_bounds_witness :
    0 ≤ (Randf32.next ⟨555555555⟩).1 ∧ (Randf32.next ⟨555555555⟩).1 ≤ 1 ∧
      2 ≤ (Randf32.inRange ⟨555555555⟩ 2 5).1 ∧
      (Randf32.inRange ⟨555555555⟩ 2 5).1 ≤ 5 :=
  randf32_next_inRange_bounds ⟨555555555⟩ 2 5 (by norm_num)

/-- C8: `Particle::update` integrates by semi-implicit Euler: the velocity
first gains the acceleration term `(0, gravity * weight, 0) * delta * 0.5`,
the position then gains the updated velocity scaled by `delta`, and no
other particle field changes. -/
theorem particle_update_semi_implicit_euler (p : Particle) (delta gravity : ℚ) :
    (p.update delta gravity).vel.x = p.vel.x ∧
    (p.update delta gravity).vel.y = p.vel.y + gravity * p.weight * delta * (1 / 2) ∧
    (p.update delta gravity).vel.z = p.vel.z ∧
    (p.update delta gravity).pos.x = p.pos.x + (p.update delta gravity).vel.x * delta ∧
    (p.update delta gravity).pos.y = p.pos.y + (p.update delta gravity).vel.y * delta ∧
    (p.update delta gravity).pos.z = p.pos.z + (p.update delta gravity).vel.z * delta ∧
    (p.update delta gravity).rot = p.rot ∧
    (p.update delta gravity).scale = p.scale ∧
    (p.update delta gravity).life = p.life ∧
    (p.update delta gravity).weight = p.weight ∧
    (p.update delta gravity).color = p.color := by
  refine ⟨?_, ?_, ?_, ?_, ?_, ?_, rfl, rfl, rfl, rfl, rfl⟩ <;>
    simp [Particle.update, V3.add, V3.smul]

/-- C9: `add_light` returns `InvalidLightIndex` exactly when
`idx >= max_lights`; on success it issues the single buffer write at
offset `idx * Light::size()`, and on error it issues no write. -/
theorem add_light_checks_index (r : ParticleSystemRenderer) (position color : V4)
    (idx : ℕ) :
    ((∃ e, r.addLight position color idx = .error e) ↔ r.maxLights ≤ idx) ∧
    (r.maxLights ≤ idx →
      r.addLight position color idx = .error (.InvalidLightIndex idx r.maxLights)) ∧
    (idx < r.maxLights →
      r.addLight position color idx = .ok [(idx * Light.size, ⟨position, color⟩)]) := by
  unfold ParticleSystemRenderer.addLight
  by_cases h : r.maxLights ≤ idx
  · rw [if_pos h]
    exact ⟨⟨fun _ => h, fun _ => ⟨_, rfl⟩⟩, fun _ => rfl, fun hc => absurd h (by omega)⟩
  · rw [if_neg h]
    refine ⟨⟨?_, fun hc => absurd hc h⟩, fun hc => absurd hc h, fun _ => rfl⟩
    rintro ⟨e, he⟩
    exact absurd he (by simp)

/-- Witness for `add_light_checks_index`: with `max_lights = 4`, index 2
succeeds with a write at byte offset `2 * 32 = 64`, and index 4 fails
with `InvalidLightIndex`. -/
theorem add_light_checks_index_witness :
    (ParticleSystemRenderer.addLight ⟨4⟩ ⟨0, 0, 0, 0⟩ ⟨1, 1, 1, 1⟩ 2 =
      .ok [(64, ⟨⟨0, 0, 0, 0⟩, ⟨1, 1, 1, 1⟩⟩)]) ∧
    (ParticleSystemRenderer.addLight ⟨4⟩ ⟨0, 0, 0, 0⟩ ⟨1, 1, 1, 1⟩ 4 =
      .error (.InvalidLightIndex 4 4)) :=
  ⟨(add_light_checks_index ⟨4⟩ ⟨0, 0, 0, 0⟩ ⟨1, 1, 1, 1⟩ 2).2.2 (by norm_num),
    (add_light_checks_index ⟨4⟩ ⟨0, 0, 0, 0⟩ ⟨1, 1, 1, 1⟩ 4).2.1 (by norm_num)⟩

/-- C2 (counterexample): on the pool `[life 1.0, life 0.0]` with cursor 0,
the spec's scan (first particle with `life <= 0`) selects index 1, but
`find_unused_particle` tests `life < 0.0` strictly, finds nothing, and
falls back to index 0. -/
theorem find_unused_particle_skips_zero_life :
    findUnusedParticle [aliveParticle, Particle.default] 0 = 0 ∧
      specFindUnusedLe [aliveParticle, Particle.default] 0 = 1 ∧ (0 : ℕ) ≠ 1 := by
  refine ⟨by decide!, by decide!, by decide⟩

/-- C2 (amended): for every pool and cursor within the pool bounds,
`find_unused_particle` returns the first index — in the scan order
`cursor..len` then `0..cursor` — of a particle with `life < 0.0`
(strictly), and index 0 when no such particle exists. -/
theorem find_unused_particle_first_strictly_dead (ps : List Particle) (cursor : ℕ)
    (hc : cursor ≤ ps.length) :
    ((∀ i, i < ps.length → ¬ (ps.getD i Particle.default).life < 0) →
      findUnusedParticle ps cursor = 0) ∧
    (∀ i, i < ps.length → (ps.getD i Particle.default).life < 0 →
      findUnusedParticle ps cursor < ps.length ∧
      (ps.getD (findUnusedParticle ps cursor) Particle.default).life < 0 ∧
      cyclicRank cursor ps.length (findUnusedParticle ps cursor) ≤
        cyclicRank cursor ps.length i) :=
  ⟨findUnusedParticle_of_none hc, fun _ hi hd => findUnusedParticle_min hc hi hd⟩

/-- Witness for `find_unused_particle_first_strictly_dead` on the
single-slot pool `[life -1.0]` with cursor 0. -/
theorem find_unused_particle_first_strictly_dead_witness :
    findUnusedParticle [deadParticle] 0 < 1 ∧
      (([deadParticle] : List Particle).getD (findUnusedParticle [deadParticle] 0)
        Particle.default).life < 0 ∧
      cyclicRank 0 1 (findUnusedParticle [deadParticle] 0) ≤ cyclicRank 0 1 0 := by
  have h := (find_unused_particle_first_strictly_dead [deadParticle] 0 (by norm_num)).2
    0 (by norm_num) (by decide!)
  simpa using h

/-- C6 (counterexample): in a system whose only particle has `life = 0.5`,
`update(delta = 1.0)` expires that particle (its life becomes `-0.5`) but
writes nothing to the instance buffer — no zeroed/degenerate record is
produced for the just-expired slot, contradicting the claimed frame
effect. -/
theorem expired_particle_slot_not_written :
    (expiringSystem.particles.getD 0 Particle.default).life = 1 / 2 ∧
      ((expiringSystem.update 1).1.particles.getD 0 Particle.default).life = -(1 / 2) ∧
      (expiringSystem.update 1).2 = [] := by
  refine ⟨by decide!, by decide!, by decide!⟩

/-- C6 (amended): the buffer writes of an `update` call are exactly one
record per particle that is alive after the life decrement
(`life - delta > 0`), at byte offset `index * ParticleInstance::size()`,
holding that particle's post-integration state; a particle whose life is
decremented to `<= 0` on this call gets no write at all — its stale
instance record from previous frames is left in the buffer. -/
theorem update_writes_exactly_live (s : ParticleSystem) (delta : ℚ) (off : ℕ)
    (q : Particle) :
    (off, q) ∈ (s.update delta).2 ↔
      ∃ j, j < (spawnPhase s).particles.length ∧ off = j * instanceSize ∧
        0 < ((spawnPhase s).particles.getD j Particle.default).life - delta ∧
        q = stepOne delta s.gravity ((spawnPhase s).particles.getD j Particle.default) := by
  rw [update_writes, stepParticles_writes_mem]
  constructor
  · rintro ⟨j, hj, hoff, hd, hq⟩
    exact ⟨j, hj, by simpa using hoff, hd, hq⟩
  · rintro ⟨j, hj, hoff, hd, hq⟩
    exact ⟨j, hj, by simpa using hoff, hd, hq⟩

/-- C10 (counterexample): with a non-empty single-slot pool holding a live
particle but a stale cursor (`search_pos = 2`, the state left behind by a
shrinking `set_max_particles`, which never re-clamps the cursor),
`update` panics: the wrap-around scan `0..search_pos` indexes past the
end of the pool. -/
theorem update_panics_on_stale_cursor :
    staleCursorSystem.particles ≠ [] ∧ updateChecked staleCursorSystem 1 = none := by
  refine ⟨by decide!, by decide!⟩

/-- C10 (amended): whenever the pool is non-empty and the cursor does not
exceed the pool length (an invariant that holds for every state reachable
by `new` and `update` alone), `find_unused_particle` returns an index
strictly below the pool length and every particle access performed by
`update` is in bounds — the bounds-checked mirror `updateChecked`
completes without a panic and computes the same state; neither fact
relies on the pool containing a dead particle. -/
theorem update_accesses_in_bounds (s : ParticleSystem) (delta : ℚ)
    (hne : s.particles ≠ []) (hc : s.searchPos ≤ s.particles.length) :
    findUnusedParticle s.particles s.searchPos < s.particles.length ∧
      updateChecked s delta = some (s.update delta).1 := by
  have hlen : 0 < s.particles.length := List.length_pos.mpr hne
  exact ⟨findUnusedParticle_lt hlen hc, updateChecked_eq delta hlen hc⟩

/-- Witness for `update_accesses_in_bounds` on a concrete one-particle
system. -/
theorem update_accesses_in_bounds_witness :
    findUnusedParticle expiringSystem.particles expiringSystem.searchPos <
        expiringSystem.particles.length ∧
      updateChecked expiringSystem 1 = some (expiringSystem.update 1).1 :=
  update_accesses_in_bounds expiringSystem 1 (by decide!) (by decide!)

/-- C3: across a single `update` call with a non-negative delta and
unexpired system life, at most `rate` pool slots transition from dead
(`life <= 0`) to alive (`life > 0`): only the `rate` spawn-loop stores
can raise a particle's life, and the per-particle pass only lowers it. -/
theorem spawn_rate_bounds_transitions (s : ParticleSystem) (delta : ℚ)
    (hdelta : 0 ≤ delta) (hlife : 0 ≤ s.life) :
    deadAliveTransitions s (s.update delta).1 ≤ s.rate := by
  obtain ⟨I, hcard, hI⟩ := spawnLoop_changed s s.rate
  refine le_trans (Finset.card_le_card fun i hi => ?_) hcard
  simp only [Finset.mem_filter, Finset.mem_range] at hi
  obtain ⟨hrange, hold, hnew⟩ := hi
  by_contra hiI
  have heq := hI i hiI
  have hsp : spawnPhase s = spawnLoop s s.rate := by
    unfold spawnPhase
    rw [if_pos hlife]
  have hlensp : i < (spawnPhase s).particles.length := by
    rw [hsp, spawnLoop_particles_length]
    exact hrange
  have hnewi : (s.update delta).1.particles.getD i Particle.default =
      stepOne delta s.gravity ((spawnPhase s).particles.getD i Particle.default) := by
    rw [update_particles]
    exact getD_map_lt hlensp _ _ _
  rw [hnewi, stepOne_life, hsp, heq] at hnew
  linarith

/-- Witness for `spawn_rate_bounds_transitions` on a concrete system with
`rate = 1`. -/
theorem spawn_rate_bounds_transitions_witness :
    deadAliveTransitions staleCursorSystem (staleCursorSystem.update 1).1 ≤
      staleCursorSystem.rate :=
  spawn_rate_bounds_transitions staleCursorSystem 1 (by norm_num) (by decide!)

/-- C4: for every update sequence applied to a freshly constructed system
with capacity `desc.max` (and no resize), the number of particles with
`life > 0` never exceeds `desc.max`: the pool length is invariant and the
alive particles are a subset of its slots. -/
theorem pool_capacity_invariant (desc : ParticleSystemDescriptor) (deltas : List ℚ) :
    aliveCount (deltas.foldl (fun s d => (s.update d).1) (ParticleSystem.new desc)) ≤
      desc.max := by
  have hlen : ∀ (ds : List ℚ) (s : ParticleSystem),
      (ds.foldl (fun s d => (s.update d).1) s).particles.length = s.particles.length := by
    intro ds
    induction ds with
    | nil => intro s; rfl
    | cons d ds ih => intro s; rw [List.foldl_cons, ih, update_particles_length]
  calc aliveCount (deltas.foldl (fun s d => (s.update d).1) (ParticleSystem.new desc))
      ≤ (deltas.foldl (fun s d => (s.update d).1)
          (ParticleSystem.new desc)).particles.length := List.countP_le_length _
    _ = (ParticleSystem.new desc).particles.length := hlen deltas _
    _ = desc.max := by simp [ParticleSystem.new]

/-- C5 (counterexample): start the two-slot example system, run one
`update` (slot 0 now holds a live particle), then call
`set_max_particles(3)`: slot 0 still holds the live particle — its life
is positive and it differs from the default particle — so particle state
*is* preserved across the call, contradicting the claim that every slot
of the resized pool holds a default dead particle. -/
theorem set_max_particles_keeps_live_particle :
    0 < (((((ParticleSystem.new smallDescriptor).update 1).1).setMaxParticles 3).particles.getD
        0 Particle.default).life ∧
      ((((ParticleSystem.new smallDescriptor).update 1).1).setMaxParticles 3).particles.getD
        0 Particle.default ≠ Particle.default := by
  refine ⟨by decide!, by decide!⟩

/-- C5 (amended): `set_max_particles(new_max)` has `Vec::resize`
semantics: the pool is truncated or extended to length `new_max`, the
first `min(new_max, old_len)` particles keep their previous state
unchanged, and only the newly appended slots (when growing) hold default
dead particles; the instance buffer is then re-created from this resized
pool. -/
theorem set_max_particles_resize_semantics (s : ParticleSystem) (m : ℕ) :
    (s.setMaxParticles m).particles.length = m ∧
    (∀ i, i < m → i < s.particles.length →
      (s.setMaxParticles m).particles.getD i Particle.default =
        s.particles.getD i Particle.default) ∧
    (∀ i, s.particles.length ≤ i → i < m →
      (s.setMaxParticles m).particles.getD i Particle.default = Particle.default) := by
  unfold ParticleSystem.setMaxParticles
  refine ⟨?_, ?_, ?_⟩
  · simp only [List.length_append, List.length_take, List.length_replicate]
    omega
  · intro i him hilen
    have hlt : i < (s.particles.take m).length := by
      simp only [List.length_take]
      omega
    rw [List.getD_eq_getElem?_getD, List.getElem?_append_left hlt,
      List.getElem?_take_of_lt him, ← List.getD_eq_getElem?_getD]
  · intro i hge him
    have htk : (s.particles.take m).length = s.particles.length := by
      simp only [List.length_take]
      omega
    rw [List.getD_eq_getElem?_getD, List.getElem?_append_right (by omega), htk,
      List.getElem?_replicate]
    rw [if_pos (by omega)]
    rfl

/-- Witness for `set_max_particles_resize_semantics`: shrinking the
one-particle example system to capacity 1 keeps slot 0 unchanged. -/
theorem set_max_particles_resize_semantics_witness :
    (expiringSystem.setMaxParticles 1).particles.length = 1 ∧
      (expiringSystem.setMaxParticles 1).particles.getD 0 Particle.default =
        expiringSystem.particles.getD 0 Particle.default :=
  ⟨(set_max_particles_resize_semantics expiringSystem 1).1,
    (set_max_particles_resize_semantics expiringSystem 1).2.1 0 (by norm_num) (by decide!)⟩

/-- C1 (counterexample): in the spec's concrete scenario (`max = 10`,
`rate = 3`, system `life = 1000.0`, life bounds guaranteeing `[5, 10]`),
one `update(delta = 1.0)` leaves exactly 1 particle alive, not 3: the
default particles start at `life = 0.0`, the scan requires `life < 0.0`
strictly, so every spawn of the first frame collapses into slot 0. -/
theorem first_update_spawns_one_not_three :
    aliveCount ((ParticleSystem.new exampleDescriptor).update 1).1 = 1 ∧
      ¬ aliveCount ((ParticleSystem.new exampleDescriptor).update 1).1 = 3 := by
  refine ⟨by decide!, by decide!⟩

/-- C1 (amended): for any bounds whose life descriptor guarantees sampled
lifetimes in `[5, 10]` (and any spawn position and gravity), constructing
the system with `max = 10`, `rate = 3`, system `life = 1000.0` and
calling `update(delta = 1.0)` once leaves exactly **1** particle with
`life > 0`: construction leaves all pool particles at `life = 0.0`, which
the strict `life < 0.0` reuse test does not treat as free, so all three
spawns overwrite slot 0. -/
theorem first_update_leaves_one_alive (b : ParticleSystemBounds) (pos : V3) (g : ℚ)
    (hv : 0 ≤ b.life.variance) (hlo : 5 ≤ b.life.mean - b.life.variance)
    (hhi : b.life.mean + b.life.variance ≤ 10) :
    aliveCount ((ParticleSystem.new (scenarioDescriptor b pos g)).update 1).1 = 1 := by
  have hsample : ∀ r : Randf32, 5 ≤ (newParticle r b pos).1.life := fun r =>
    le_trans hlo (newParticle_life_mem r b pos hv).1
  set S := ParticleSystem.new (scenarioDescriptor b pos g) with hS
  have hparts : S.particles = List.replicate 10 Particle.default := rfl
  have hnn : ∀ i, i < S.particles.length →
      0 ≤ (S.particles.getD i Particle.default).life := by
    rw [hparts]
    intro i hi
    rw [getD_replicate (by simpa using hi)]
    norm_num [Particle.default]
  have hsample0 : ∀ r : Randf32, 0 ≤ (newParticle r S.bounds S.position).1.life := by
    intro r
    have hb : S.bounds = b := rfl
    have hp : S.position = pos := rfl
    rw [hb, hp]
    linarith [hsample r]
  obtain ⟨r', h3⟩ := spawnLoop_collapses 3 (by norm_num) S hnn (Nat.zero_le _) hsample0
  have hphase : spawnPhase S = spawnLoop S 3 := by
    unfold spawnPhase
    rw [if_pos (show (0 : ℚ) ≤ S.life from by
      norm_num [hS, ParticleSystem.new, scenarioDescriptor])]
    rfl
  unfold aliveCount
  rw [update_particles, hphase, h3]
  have hb : S.bounds = b := rfl
  have hp : S.position = pos := rfl
  have hg : S.gravity = g := rfl
  simp only [hb, hp, hg, hparts]
  rw [show (List.replicate 10 Particle.default) =
    Particle.default :: List.replicate 9 Particle.default from rfl]
  rw [List.set_cons_zero, List.map_cons, List.map_replicate, List.countP_cons,
    countP_replicate]
  have c1 : (decide (0 < (stepOne 1 g (newParticle r' b pos).1).life)) = true := by
    rw [decide_eq_true_eq, stepOne_life]
    linarith [hsample r']
  have c2 : (decide (0 < (stepOne 1 g Particle.default).life)) = false := by
    rw [decide_eq_false_iff_not, stepOne_life]
    norm_num [Particle.default]
  simp [c1, c2]

/-- Witness for `first_update_leaves_one_alive` at the example bounds
(life mean 7.5, variance 2.5). -/
theorem first_update_leaves_one_alive_witness :
    aliveCount ((ParticleSystem.new
      (scenarioDescriptor exampleBounds ⟨0, 0, 0⟩ (-981 / 100))).update 1).1 = 1 :=
  first_update_leaves_one_alive exampleBounds ⟨0, 0, 0⟩ (-981 / 100)
    (by norm_num [exampleBounds]) (by norm_num [exampleBounds])
    (by norm_num [exampleBounds])

end Brumous
